import Mathlib

/-! # giflichess: the GIF pipeline of `gifmaker/gifmaker.go` and `server/server.go`

A shallow embedding of `GenerateGIF`, `drawPNG`, `cleanup`, `fileBaseFor` and
`getTheme`.

* External tools (the SVG renderer, inkscape, the shell scripts, the PNG
  decoder, the GIF encoder, the file system calls) are not executed: what each
  of them reports in a run is read from a `World`.
* Goroutine scheduling is represented by the order in which the encode workers
  hand their `imgOutput` to the collector loop. Each worker releases its pool
  slot (`defer pool.Done()`) only after its send on the unbuffered channel was
  received, so `quit` reaches the loop after every result; the modelled runs
  are those in which the pool grants its slots (`maxConcurrency >= 1`).
* `float64` division is IEEE-754 binary64 round-to-nearest-even; `int` is the
  64-bit signed integer of the usual targets.
-/

namespace Giflichess

/-! ## float64 arithmetic used by the delay computation -/

/-- A float64 that is neither negative nor NaN: the finite value `m * 2^e`, or `+Inf`.
The speed of a run and the quotients `float64(baseDelay) / speed` are of this kind. -/
inductive F64 where
  | fin (m : Nat) (e : Int)
  | inf
deriving DecidableEq, Repr

/-- The rational number a finite float stands for. -/
def F64.toRat : F64 → Option ℚ
  | F64.fin m e => some ((m : ℚ) * (2 : ℚ) ^ e)
  | F64.inf => none

/-- Whether `fin m e` is a value of the binary64 format (53 bit significand,
exponent of the last place between -1074 and 971). -/
def F64.representable : F64 → Bool
  | F64.fin m e => decide (m < 2 ^ 53) && decide (-1074 ≤ e) && decide (e ≤ 971)
  | F64.inf => true

/-- The fraction `num / den` multiplied by `2^s`, again as a fraction of naturals. -/
def scale2 (num den : Nat) (s : Int) : Nat × Nat :=
  if 0 ≤ s then (num * 2 ^ s.toNat, den) else (num, den * 2 ^ (-s).toNat)

/-- Worker of `log2`: halves `n` until it is below 2. -/
def log2Aux : Nat → Nat → Nat
  | 0, _ => 0
  | f + 1, n => if n < 2 then 0 else log2Aux f (n / 2) + 1

/-- The position of the highest set bit of `n` (0 for `n = 0`). -/
def log2 (n : Nat) : Nat := log2Aux n n

/-- The binary exponent `floor (log2 (num / den))` of a positive fraction. -/
def ilog2 (num den : Nat) : Int :=
  let k : Int := (log2 num : Int) - (log2 den : Int)
  let p := scale2 num den (-k)
  if p.2 ≤ p.1 then k else k - 1

/-- The integer nearest to `n / d`, ties going to the even one. -/
def roundHalfEven (n d : Nat) : Nat :=
  let q := n / d
  let r := n % d
  if 2 * r < d then q else if d < 2 * r then q + 1 else if q % 2 = 0 then q else q + 1

/-- The binary64 nearest to the fraction `num / den` (round to nearest, ties to even;
subnormal below `2^-1022`, `+Inf` from `2^1024` on and for a zero denominator). -/
def roundF64 (num den : Nat) : F64 :=
  if den = 0 then F64.inf
  else if num = 0 then F64.fin 0 0
  else
    let e := max (ilog2 num den) (-1022)
    let p := scale2 num den (52 - e)
    let m := roundHalfEven p.1 p.2
    if 1024 ≤ e ∨ (e = 1023 ∧ 2 ^ 53 ≤ m) then F64.inf else F64.fin m (e - 52)

/-- The float64 quotient `float64(b) / x` of a natural `b > 0` that float64 holds exactly
(the base delays 50, 120, 450), by `x`; a zero `x` gives `+Inf`. -/
def F64.divNat (b : Nat) : F64 → F64
  | F64.inf => F64.fin 0 0
  | F64.fin m e => let p := scale2 b m (-e); roundF64 p.1 p.2

/-- The integer part of a finite value; `none` for `+Inf`. -/
def F64.trunc : F64 → Option Nat
  | F64.inf => none
  | F64.fin m e => some (if 0 ≤ e then m * 2 ^ e.toNat else m / 2 ^ (-e).toNat)

/-- The conversion `int(x)`: truncation when the integer part fits `int64`; otherwise Go
leaves the result to the implementation, which is what `ovf` supplies. -/
def F64.toInt (ovf : F64 → Int) (x : F64) : Int :=
  match x.trunc with
  | some t => if t < 2 ^ 63 then (t : Int) else ovf x
  | none => ovf x

/-! ## Delay schedule (the final loop of `GenerateGIF`) -/

/-- The `baseDelay` chosen for frame `i` of `n = len(game.Positions())`. -/
def baseDelay (i n : Nat) : Nat :=
  if (i : Int) = (n : Int) - 1 then 450
  else if i < 10 then 50
  else 120

/-- The `adjustedDelay` of one frame: `int(float64(baseDelay) / speed)`, raised to 5. -/
def adjustedDelay (ovf : F64 → Int) (base : Nat) (speed : F64) : Int :=
  let a := F64.toInt ovf (F64.divNat base speed)
  if a < 5 then 5 else a

/-- The delay of frame `i` among `n` positions. -/
def delay (ovf : F64 → Int) (i n : Nat) (speed : F64) : Int :=
  adjustedDelay ovf (baseDelay i n) speed

/-- The value `max(5, floor(base / speed))` over the rationals, as the specification
words it (`base / +Inf` being 0). -/
def specDelay (base : Nat) : F64 → Int
  | F64.inf => 5
  | F64.fin m e => max 5 ⌊(base : ℚ) / ((m : ℚ) * (2 : ℚ) ^ e)⌋

/-- The animation handed to `gif.EncodeAll`: `gif.GIF` with its `Image` and `Delay`
slices. A frame is a pointer, so it may be nil (`none`). -/
structure GIF (Img : Type) where
  Image : List (Option Img)
  Delay : List Int
deriving DecidableEq, Repr

/-- The loop `for i, img := range images` appending one frame and one delay per slot;
`i` is the index of the head of the remaining slots. -/
def assemble {Img : Type} (ovf : F64 → Int) (n : Nat) (speed : F64) :
    Nat → List (Option Img) → GIF Img → GIF Img
  | _, [], outGIF => outGIF
  | i, img :: rest, outGIF =>
    assemble ovf n speed (i + 1) rest
      { Image := outGIF.Image ++ [img], Delay := outGIF.Delay ++ [delay ovf i n speed] }

/-! ## Themes -/

/-- A `color.RGBA` value. -/
structure RGBA where
  R : Nat
  G : Nat
  B : Nat
  A : Nat
deriving DecidableEq, Repr

/-- The `themes` table: (dark, light) per theme name. -/
def themes : String → Option (RGBA × RGBA)
  | "brown" => some (⟨181, 136, 99, 255⟩, ⟨240, 217, 181, 255⟩)
  | "blue" => some (⟨70, 130, 180, 255⟩, ⟨173, 216, 230, 255⟩)
  | "green" => some (⟨119, 149, 86, 255⟩, ⟨235, 236, 208, 255⟩)
  | "purple" => some (⟨128, 70, 153, 255⟩, ⟨218, 185, 234, 255⟩)
  | _ => none

/-- The first statement of `GenerateGIF`: the (darkColor, lightColor) it assigns. -/
def setThemeColors (theme : String) : RGBA × RGBA :=
  match themes theme with
  | some themeColors => (themeColors.1, themeColors.2)
  | none => ((themes "brown").getD (⟨0, 0, 0, 0⟩, ⟨0, 0, 0, 0⟩))

/-- The `validThemes` map of `getTheme` (a missing key reads as false). -/
def validThemes : String → Bool
  | "brown" => true
  | "blue" => true
  | "green" => true
  | "purple" => true
  | _ => false

/-- The function `getTheme` of the server, on the parsed query (`r.URL.Query()`): a key
maps to the list of its values. -/
def getTheme (query : String → Option (List String)) : String :=
  match query "theme" with
  | some [s] => if validThemes s then s else "brown"
  | _ => "brown"

/-! ## Scratch paths -/

/-- Left padding with `0` up to `width` characters. -/
def zeroPad (width : Nat) (ds : List Char) : List Char :=
  List.replicate (width - ds.length) '0' ++ ds

/-- The text `fmt.Sprintf("%03d", i)`: decimal digits, zero padded to width 3, the sign
of a negative number counting towards the width. -/
def sprintf03d (i : Int) : String :=
  if 0 ≤ i then String.mk (zeroPad 3 (Nat.toDigits 10 i.toNat))
  else String.mk ('-' :: zeroPad 2 (Nat.toDigits 10 (-i).toNat))

/-- The function `fileBaseFor`. -/
def fileBaseFor (gameID : String) (i : Int) : String :=
  "/tmp/" ++ gameID ++ sprintf03d i

/-- Scratch storage: the paths of the files that exist. -/
abbrev FS := List String

/-- The call `os.Remove(path)`. -/
def FS.remove (fs : FS) (path : String) : FS := fs.filter (fun p => p ≠ path)

/-- The function `cleanup`. -/
def cleanup (gameID : String) (i : Int) (fs : FS) : FS :=
  let fileBase := fileBaseFor gameID i
  (fs.remove (fileBase ++ ".svg")).remove (fileBase ++ ".png")

/-! ## Render jobs -/

/-- An `error` value; `Option Err` is a Go `error`, `none` being nil. -/
abbrev Err := String

/-- What the four fallible steps of one `drawPNG` call report: `os.Create`, the SVG
writer, the inkscape run and the annotate script. -/
structure RenderEnv where
  create : Option Err
  svg : Option Err
  convert : Option Err
  annotate : Option Err

/-- The function `drawPNG`: its return value and the scratch storage it leaves. The
variable `err` is the one of the source; `r` holds what a command run reports. -/
def drawPNG (env : RenderEnv) (filebase : String) (fs : FS) : Option Err × FS :=
  match env.create with
  | some e => (some e, fs)
  | none =>
    let fs := (filebase ++ ".svg") :: fs
    let err := env.svg
    match err with
    | some e => (some e, fs)
    | none =>
      match env.convert with
      | some _r => (err, fs)
      | none =>
        let fs := (filebase ++ ".png") :: fs
        match env.annotate with
        | some _r => (err, fs)
        | none => (none, fs)

/-! ## The collector loop and `GenerateGIF` -/

/-- The struct `imgOutput`. -/
structure imgOutput (Img : Type) where
  index : Nat
  img : Option Img
  err : Option Err

/-- Everything outside the program that one run of `GenerateGIF` meets. -/
structure World (Img : Type) where
  /-- what the tools of render job `i` report -/
  render : Nat → RenderEnv
  /-- what `gifmaker/addResult.sh` reports for the file it is given -/
  stamp : String → Option Err
  /-- what `encodeGIFImage(gameID, i)` returns -/
  encode : Nat → Except Err Img
  /-- what `gif.EncodeAll` returns -/
  encodeAll : Option Err

/-- The body of an encode worker: `outChan <- imgOutput{i, encoded, err}`. -/
def encodeJob {Img : Type} (w : World Img) (i : Nat) : imgOutput Img :=
  match w.encode i with
  | Except.ok encoded => { index := i, img := some encoded, err := none }
  | Except.error e => { index := i, img := none, err := some e }

/-- How the collector loop ends. -/
inductive Collected (Img : Type) where
  | done (images : List (Option Img))
  | failed (e : Err)
  | panicked

/-- The loop labelled `loop`: the results in the order they are received, then `quit`.
An index outside the slice is a run-time panic. -/
def collect {Img : Type} : List (Option Img) → List (imgOutput Img) → Collected Img
  | images, [] => Collected.done images
  | images, res :: rest =>
    match res.err with
    | some e => Collected.failed e
    | none =>
      if res.index < images.length then collect (images.set res.index res.img) rest
      else Collected.panicked

/-- How `GenerateGIF` returns. -/
inductive Returned where
  | nil
  | error (e : Err)
  | panicked
deriving DecidableEq, Repr

/-- The observable result of one run of `GenerateGIF`. -/
structure Run (Img : Type) where
  /-- the returned `error` -/
  ret : Returned
  /-- the animation passed to `gif.EncodeAll(out, _)`, the only write to `out`;
  `none` when `out` was never written -/
  written : Option (GIF Img)
  /-- what `gif.EncodeAll` returned, when it was called -/
  encodeAllErr : Option Err
  /-- scratch storage after the deferred calls -/
  fs : FS
  darkColor : RGBA
  lightColor : RGBA

/-- The first loop of `GenerateGIF`: a render job per index, its return value dropped by
the `go` statement. -/
def renderAll {Img : Type} (w : World Img) (gameID : String) : Nat → FS → FS
  | 0, fs => fs
  | n + 1, fs =>
    let fs := renderAll w gameID n fs
    (drawPNG (w.render n) (fileBaseFor gameID (n : Int)) fs).2

/-- The deferred `cleanup(gameID, i)` calls, run last-registered first. -/
def runDeferred (gameID : String) : Nat → FS → FS
  | 0, fs => fs
  | n + 1, fs => runDeferred gameID n (cleanup gameID (n : Int) fs)

/-- The function `GenerateGIF` for a game of `n` positions; `order` lists the indices
in the order their encode results reach the collector loop. -/
def GenerateGIF {Img : Type} (w : World Img) (ovf : F64 → Int) (n : Nat) (gameID : String)
    (speed : F64) (theme : String) (order : List Nat) (fs : FS) : Run Img :=
  let colors := setThemeColors theme
  let fs := renderAll w gameID n fs
  let fileName := fileBaseFor gameID ((n : Int) - 1) ++ ".png"
  let body : Returned × Option (GIF Img) × Option Err :=
    match w.stamp fileName with
    | some err => (Returned.error err, none, none)
    | none =>
      match collect (List.replicate n none) (order.map (encodeJob w)) with
      | Collected.failed e => (Returned.error e, none, none)
      | Collected.panicked => (Returned.panicked, none, none)
      | Collected.done images =>
        let outGIF := assemble ovf n speed 0 images { Image := [], Delay := [] }
        (Returned.nil, some outGIF, w.encodeAll)
  { ret := body.1, written := body.2.1, encodeAllErr := body.2.2,
    fs := runDeferred gameID n fs, darkColor := colors.1, lightColor := colors.2 }

/-! ## Concrete inputs used by the witnesses -/

/-- The out-of-range result of `int(x)` on amd64: the conversion instruction yields
`-2^63` (the bit pattern `0x8000000000000000`). -/
def amd64Overflow : F64 → Int := fun _ => -9223372036854775808

/-- A world in which every tool succeeds; the frame encoded from index `i` is `100 + i`. -/
def worldAllGood : World Nat :=
  { render := fun _ => { create := none, svg := none, convert := none, annotate := none },
    stamp := fun _ => none,
    encode := fun i => Except.ok (100 + i),
    encodeAll := none }

/-- A world in which the PNG of index 1 and the PNG of index 2 fail to decode, with
different errors; every other tool succeeds. -/
def worldTwoBadPNGs : World Nat :=
  { render := fun _ => { create := none, svg := none, convert := none, annotate := none },
    stamp := fun _ => none,
    encode := fun i =>
      if i = 1 then Except.error "png: invalid format: not a PNG file"
      else if i = 2 then Except.error "unexpected EOF"
      else Except.ok (100 + i),
    encodeAll := none }

/-- A world in which the annotate script fails for the frame of index 0 and every other
tool succeeds (the PNG of index 0 exists, without its caption). -/
def worldAnnotateFails : World Nat :=
  { render := fun i =>
      { create := none, svg := none, convert := none,
        annotate := if i = 0 then some "exit status 1" else none },
    stamp := fun _ => none,
    encode := fun i => Except.ok (100 + i),
    encodeAll := none }

/-- A world in which every tool succeeds except the final `gif.EncodeAll`, whose write to
the output fails. -/
def worldSinkFails : World Nat :=
  { render := fun _ => { create := none, svg := none, convert := none, annotate := none },
    stamp := fun _ => none,
    encode := fun i => Except.ok (100 + i),
    encodeAll := some "write tcp: broken pipe" }

/-- A world in which `addResult.sh` fails. -/
def worldStampFails : World Nat :=
  { render := fun _ => { create := none, svg := none, convert := none, annotate := none },
    stamp := fun _ => some "exit status 1",
    encode := fun i => Except.ok (100 + i),
    encodeAll := none }

/-! ## Reading a decimal text back (used to show that `sprintf03d` loses nothing) -/

/-- The number a string of decimal digits stands for, read from accumulator `acc`. -/
def digitsValue (acc : Nat) (cs : List Char) : Nat :=
  cs.foldl (fun a c => 10 * a + (c.toNat - 48)) acc

/-! ## Lemmas on the float model -/

theorem F64.trunc_fin_eq_floor (m : Nat) (e : Int) :
    F64.trunc (F64.fin m e) = some ⌊(m : ℚ) * (2 : ℚ) ^ e⌋₊ := by
  simp only [F64.trunc]
  congr 1
  split
  · next h =>
    obtain ⟨k, rfl⟩ := Int.eq_ofNat_of_zero_le h
    have : (m : ℚ) * (2 : ℚ) ^ ((k : ℕ) : ℤ) = ((m * 2 ^ k : ℕ) : ℚ) := by
      push_cast; rw [zpow_natCast]
    rw [this, Nat.floor_natCast]; simp
  · next h =>
    obtain ⟨k, hk⟩ : ∃ k : ℕ, e = -(k : ℤ) := ⟨(-e).toNat, by omega⟩
    subst hk
    have : (m : ℚ) * (2 : ℚ) ^ (-(k : ℤ)) = (m : ℚ) / ((2 ^ k : ℕ) : ℚ) := by
      rw [zpow_neg, zpow_natCast]; push_cast; rw [div_eq_mul_inv]
    rw [this, Nat.floor_div_eq_div]; simp

theorem F64.toInt_of_floor_lt (ovf : F64 → Int) (x : F64) (q : ℚ)
    (hq : x.toRat = some q) (hlt : ⌊q⌋ < 2 ^ 63) : F64.toInt ovf x = ⌊q⌋ := by
  cases x with
  | inf => simp [F64.toRat] at hq
  | fin m e =>
    simp only [F64.toRat, Option.some.injEq] at hq
    have hnn : (0 : ℚ) ≤ q := by rw [← hq]; positivity
    have hc : ((⌊q⌋₊ : ℕ) : ℤ) = ⌊q⌋ := Int.natCast_floor_eq_floor hnn
    unfold F64.toInt
    rw [F64.trunc_fin_eq_floor, hq]
    simp only
    have : ⌊q⌋₊ < 2 ^ 63 := by
      have := hc ▸ hlt
      exact_mod_cast this
    rw [if_pos this, hc]

/-- The float64 nearest to 0.1 is `3602879701896397 * 2^-55`, slightly above one tenth:
the exact quotient `50 / speed` is below 500, the float64 quotient is 500, and so is the
delay the code computes. -/
theorem divNat_50_tenth :
    F64.representable (F64.fin 3602879701896397 (-55)) = true
    ∧ (F64.divNat 50 (F64.fin 3602879701896397 (-55))).trunc = some 500
    ∧ adjustedDelay amd64Overflow 50 (F64.fin 3602879701896397 (-55)) = 500 := by
  decide

/-! ## Lemmas on the assembling loop and the collector -/

theorem assemble_Image {Img : Type} (ovf : F64 → Int) (n : Nat) (speed : F64)
    (images : List (Option Img)) :
    ∀ (i : Nat) (g : GIF Img), (assemble ovf n speed i images g).Image = g.Image ++ images := by
  induction images with
  | nil => intro i g; simp [assemble]
  | cons img rest ih => intro i g; simp [assemble, ih]

theorem assemble_Delay {Img : Type} (ovf : F64 → Int) (n : Nat) (speed : F64)
    (images : List (Option Img)) :
    ∀ (i : Nat) (g : GIF Img), (assemble ovf n speed i images g).Delay
      = g.Delay ++ (List.range' i images.length).map (fun j => delay ovf j n speed) := by
  induction images with
  | nil => intro i g; simp [assemble]
  | cons img rest ih => intro i g; simp [assemble, ih, List.range'_succ]

theorem collect_done_length {Img : Type} (rs : List (imgOutput Img)) :
    ∀ (images out : List (Option Img)), collect images rs = Collected.done out →
      out.length = images.length := by
  induction rs with
  | nil => intro images out h; simp [collect] at h; simp [← h]
  | cons r rest ih =>
    intro images out h
    unfold collect at h
    split at h
    · exact absurd h (by simp)
    · split at h
      · have := ih _ _ h
        simpa using this
      · exact absurd h (by simp)

theorem delay_eq_max (ovf : F64 → Int) (i n : Nat) (speed : F64) (hn : 1 ≤ n) :
    delay ovf i n speed
      = max 5 (F64.toInt ovf
          (F64.divNat (if i = n - 1 then 450 else if i < 10 then 50 else 120) speed)) := by
  have hb : baseDelay i n = (if i = n - 1 then 450 else if i < 10 then 50 else 120) := by
    unfold baseDelay
    have : ((i : Int) = (n : Int) - 1) ↔ i = n - 1 := by omega
    simp only [this]
  unfold delay adjustedDelay
  rw [hb]
  simp only
  generalize F64.toInt ovf _ = a
  by_cases h : a < 5
  · rw [if_pos h, max_eq_left (le_of_lt h)]
  · rw [if_neg h, max_eq_right (not_lt.mp h)]

theorem generateGIF_written {Img : Type} (w : World Img) (ovf : F64 → Int) (n : Nat)
    (gameID : String) (speed : F64) (theme : String) (order : List Nat) (fs : FS)
    (g : GIF Img)
    (hg : (GenerateGIF w ovf n gameID speed theme order fs).written = some g) :
    ∃ images, collect (List.replicate n none) (order.map (encodeJob w)) = Collected.done images
      ∧ images.length = n
      ∧ g.Image = images
      ∧ g.Delay = (List.range n).map (fun j => delay ovf j n speed) := by
  unfold GenerateGIF at hg
  simp only at hg
  split at hg
  · simp at hg
  · split at hg
    · simp at hg
    · simp at hg
    · next images hc =>
      simp only [Option.some.injEq] at hg
      have hl := collect_done_length _ _ _ hc
      simp only [List.length_replicate] at hl
      refine ⟨images, hc, hl, ?_, ?_⟩
      · rw [← hg, assemble_Image]; simp
      · rw [← hg, assemble_Delay, hl]; simp [List.range_eq_range']

/-! ## C1: the delay list -/

theorem written_delay_getElem {Img : Type} (w : World Img) (ovf : F64 → Int) (n : Nat)
    (gameID : String) (speed : F64) (theme : String) (order : List Nat) (fs : FS)
    (g : GIF Img)
    (hg : (GenerateGIF w ovf n gameID speed theme order fs).written = some g) :
    g.Delay.length = n ∧ ∀ i, i < n → g.Delay[i]? = some (delay ovf i n speed) := by
  obtain ⟨images, -, -, -, hd⟩ := generateGIF_written w ovf n gameID speed theme order fs g hg
  refine ⟨by rw [hd]; simp, ?_⟩
  intro i hi
  rw [hd, List.getElem?_map, List.getElem?_range hi]
  rfl

/-- C1 (amended): for every frame count N >= 1 and every speed, the delay list of the
animation GenerateGIF writes has exactly N entries, and entry i is
max(5, int(float64(base(i)) / speed)) with base(i) = 450 if i = N-1, else 50 if i < 10,
else 120. Whenever the floor of the float64 quotient base(i)/speed is below 2^63 this is
max(5, floor(quotient)); above that bound the int conversion is implementation-dependent. -/
theorem generateGIF_delay_list {Img : Type} (w : World Img) (ovf : F64 → Int) (n : Nat)
    (gameID : String) (speed : F64) (theme : String) (order : List Nat) (fs : FS)
    (g : GIF Img) (hn : 1 ≤ n)
    (hg : (GenerateGIF w ovf n gameID speed theme order fs).written = some g) :
    g.Delay.length = n ∧
    ∀ (i base : Nat), i < n →
      base = (if i = n - 1 then 450 else if i < 10 then 50 else 120) →
      g.Delay[i]? = some (max 5 (F64.toInt ovf (F64.divNat base speed))) ∧
      ∀ q : ℚ, (F64.divNat base speed).toRat = some q → ⌊q⌋ < 2 ^ 63 →
        g.Delay[i]? = some (max 5 ⌊q⌋) := by
  obtain ⟨hlen, hi⟩ := written_delay_getElem w ovf n gameID speed theme order fs g hg
  refine ⟨hlen, ?_⟩
  intro i base hlt hbase
  have h1 : g.Delay[i]? = some (max 5 (F64.toInt ovf (F64.divNat base speed))) := by
    rw [hi i hlt, delay_eq_max ovf i n speed hn, hbase]
  refine ⟨h1, ?_⟩
  intro q hq hlt63
  rw [h1, F64.toInt_of_floor_lt ovf _ q hq hlt63]

/-- Witness for C1: twelve positions at speed 2.0 give ten delays of 25, then 60, then 225. -/
theorem generateGIF_delay_list_witness :
    (GenerateGIF worldAllGood amd64Overflow 12 "game" (F64.fin 1 1) "brown"
        (List.range 12) []).written
      = some { Image := (List.range 12).map (fun i => some (100 + i)),
               Delay := [25, 25, 25, 25, 25, 25, 25, 25, 25, 25, 60, 225] }
    ∧ ((12 : Nat) = 12 ∧
      ∀ (i base : Nat), i < 12 →
        base = (if i = 12 - 1 then 450 else if i < 10 then 50 else 120) →
        ([25, 25, 25, 25, 25, 25, 25, 25, 25, 25, 60, 225] : List Int)[i]?
            = some (max 5 (F64.toInt amd64Overflow (F64.divNat base (F64.fin 1 1)))) ∧
        ∀ q : ℚ, (F64.divNat base (F64.fin 1 1)).toRat = some q → ⌊q⌋ < 2 ^ 63 →
          ([25, 25, 25, 25, 25, 25, 25, 25, 25, 25, 60, 225] : List Int)[i]?
            = some (max 5 ⌊q⌋)) :=
  ⟨by decide,
   generateGIF_delay_list worldAllGood amd64Overflow 12 "game" (F64.fin 1 1) "brown"
     (List.range 12) []
     { Image := (List.range 12).map (fun i => some (100 + i)),
       Delay := [25, 25, 25, 25, 25, 25, 25, 25, 25, 25, 60, 225] }
     (by decide) (by decide)⟩

theorem divNat_450_tiny :
    F64.divNat 450 (F64.fin 1 (-100)) = F64.fin 7916483719987200 56 := by
  set_option maxRecDepth 20000 in decide

theorem specDelay_450_tiny :
    specDelay 450 (F64.fin 1 (-100)) = 570442770102703230673516442419200 := by
  have : ((450 : ℕ) : ℚ) / (((1 : ℕ) : ℚ) * (2 : ℚ) ^ (-100 : ℤ))
      = ((570442770102703230673516442419200 : ℤ) : ℚ) := by
    norm_num
  simp only [specDelay]
  rw [this, Int.floor_intCast]
  decide

/-- C1 as stated fails: with one position and speed 2^-100 (a float64 above zero) the
claimed entry max(5, floor(450 / speed)) = 450 * 2^100 is no int64, so whatever the
out-of-range conversion yields, the delay list is not the claimed one; on amd64 it is [5]. -/
theorem delay_list_not_floor_for_tiny_speed :
    (¬ ∃ ovf : F64 → Int, (∀ x, -2 ^ 63 ≤ ovf x ∧ ovf x < 2 ^ 63) ∧
        ∃ g, (GenerateGIF worldAllGood ovf 1 "game" (F64.fin 1 (-100)) "brown"
                [0] []).written = some g ∧
          g.Delay[0]? = some (specDelay 450 (F64.fin 1 (-100))))
    ∧ (GenerateGIF worldAllGood amd64Overflow 1 "game" (F64.fin 1 (-100)) "brown"
        [0] []).written = some { Image := [some 100], Delay := [5] }
    ∧ F64.representable (F64.fin 1 (-100)) = true := by
  refine ⟨?_, ?_, by decide⟩
  · rintro ⟨ovf, hb, g, hg, hd⟩
    have h1 := (written_delay_getElem worldAllGood ovf 1 "game" (F64.fin 1 (-100))
      "brown" [0] [] g hg).2 0 (by decide)
    rw [delay_eq_max ovf 0 1 _ (le_refl 1)] at h1
    simp only [Nat.sub_self, if_true] at h1
    rw [h1, divNat_450_tiny, specDelay_450_tiny] at hd
    have hov := hb (F64.fin 7916483719987200 56)
    simp only [Option.some.injEq] at hd
    have : F64.toInt ovf (F64.fin 7916483719987200 56) = ovf (F64.fin 7916483719987200 56) := by
      simp [F64.toInt, F64.trunc]
    rw [this] at hd
    omega
  · set_option maxRecDepth 20000 in decide

/-! ## C9: the boundaries of the delay schedule -/

theorem specDelay_120_one : specDelay 120 (F64.fin 1 0) = 120 := by
  have : ((120 : ℕ) : ℚ) / (((1 : ℕ) : ℚ) * (2 : ℚ) ^ (0 : ℤ)) = ((120 : ℤ) : ℚ) := by
    norm_num
  simp only [specDelay]
  rw [this, Int.floor_intCast]
  decide

/-- C9 (amended): for every N > 10 and every speed, in the animation GenerateGIF writes the
delay of frame index 9 is computed from base 50 (index 9 is still below 10), as is the
delay of frame 0, and the delay of frame N-1 from base 450: each is
max(5, int(float64(base) / speed)). Base 120 first applies at index 10 (when N > 11). -/
theorem generateGIF_delay_boundaries {Img : Type} (w : World Img) (ovf : F64 → Int) (n : Nat)
    (gameID : String) (speed : F64) (theme : String) (order : List Nat) (fs : FS)
    (g : GIF Img) (hn : 10 < n)
    (hg : (GenerateGIF w ovf n gameID speed theme order fs).written = some g) :
    g.Delay[9]? = some (max 5 (F64.toInt ovf (F64.divNat 50 speed))) ∧
    g.Delay[0]? = some (max 5 (F64.toInt ovf (F64.divNat 50 speed))) ∧
    g.Delay[n - 1]? = some (max 5 (F64.toInt ovf (F64.divNat 450 speed))) ∧
    (11 < n → g.Delay[10]? = some (max 5 (F64.toInt ovf (F64.divNat 120 speed)))) := by
  obtain ⟨-, hi⟩ := written_delay_getElem w ovf n gameID speed theme order fs g hg
  have h1 : 1 ≤ n := by omega
  refine ⟨?_, ?_, ?_, ?_⟩
  · rw [hi 9 (by omega), delay_eq_max ovf 9 n speed h1]
    rw [if_neg (by omega), if_pos (by omega)]
  · rw [hi 0 (by omega), delay_eq_max ovf 0 n speed h1]
    rw [if_neg (by omega), if_pos (by omega)]
  · rw [hi (n - 1) (by omega), delay_eq_max ovf (n - 1) n speed h1]
    rw [if_pos rfl]
  · intro h11
    rw [hi 10 (by omega), delay_eq_max ovf 10 n speed h1]
    rw [if_neg (by omega), if_neg (by omega)]

/-- Witness for C9: twelve positions at speed 1.0 give 50 at index 9 and at index 0, 120 at
index 10 and 450 at index 11. -/
theorem generateGIF_delay_boundaries_witness :
    (GenerateGIF worldAllGood amd64Overflow 12 "game" (F64.fin 1 0) "brown"
        (List.range 12) []).written
      = some { Image := (List.range 12).map (fun i => some (100 + i)),
               Delay := [50, 50, 50, 50, 50, 50, 50, 50, 50, 50, 120, 450] }
    ∧ (([50, 50, 50, 50, 50, 50, 50, 50, 50, 50, 120, 450] : List Int)[9]?
          = some (max 5 (F64.toInt amd64Overflow (F64.divNat 50 (F64.fin 1 0)))) ∧
       ([50, 50, 50, 50, 50, 50, 50, 50, 50, 50, 120, 450] : List Int)[0]?
          = some (max 5 (F64.toInt amd64Overflow (F64.divNat 50 (F64.fin 1 0)))) ∧
       ([50, 50, 50, 50, 50, 50, 50, 50, 50, 50, 120, 450] : List Int)[12 - 1]?
          = some (max 5 (F64.toInt amd64Overflow (F64.divNat 450 (F64.fin 1 0)))) ∧
       (11 < 12 → ([50, 50, 50, 50, 50, 50, 50, 50, 50, 50, 120, 450] : List Int)[10]?
          = some (max 5 (F64.toInt amd64Overflow (F64.divNat 120 (F64.fin 1 0)))))) :=
  ⟨by decide,
   generateGIF_delay_boundaries worldAllGood amd64Overflow 12 "game" (F64.fin 1 0) "brown"
     (List.range 12) []
     { Image := (List.range 12).map (fun i => some (100 + i)),
       Delay := [50, 50, 50, 50, 50, 50, 50, 50, 50, 50, 120, 450] }
     (by decide) (by decide)⟩

/-- C9 as stated fails: with eleven positions and speed 1.0 the delay of frame 9 is 50,
not the claimed max(5, floor(120 / 1)) = 120, whatever the platform. -/
theorem delay_index_nine_not_base_120 :
    (¬ ∃ (ovf : F64 → Int) (g : GIF Nat),
        (GenerateGIF worldAllGood ovf 11 "game" (F64.fin 1 0) "brown"
            (List.range 11) []).written = some g ∧
          g.Delay[9]? = some (specDelay 120 (F64.fin 1 0)))
    ∧ (GenerateGIF worldAllGood amd64Overflow 11 "game" (F64.fin 1 0) "brown"
        (List.range 11) []).written
      = some { Image := (List.range 11).map (fun i => some (100 + i)),
               Delay := [50, 50, 50, 50, 50, 50, 50, 50, 50, 50, 450] } := by
  constructor
  · rintro ⟨ovf, g, hg, hd⟩
    have h1 := (written_delay_getElem worldAllGood ovf 11 "game" (F64.fin 1 0)
      "brown" (List.range 11) [] g hg).2 9 (by decide)
    rw [h1, specDelay_120_one] at hd
    have h50 : F64.divNat 50 (F64.fin 1 0) = F64.fin 7036874417766400 (-47) := by decide
    have hv : delay ovf 9 11 (F64.fin 1 0) = 50 := by
      rw [delay_eq_max ovf 9 11 _ (by decide)]
      rw [if_neg (by decide), if_pos (by decide), h50]
      simp [F64.toInt, F64.trunc]
    rw [hv] at hd
    simp at hd
  · decide

/-! ## C2 and C5: the collector loop -/

theorem collect_all_ok {Img : Type} (w : World Img) (enc : Nat → Img) (l : List Nat) :
    ∀ (images : List (Option Img)),
      (∀ i ∈ l, i < images.length ∧ w.encode i = Except.ok (enc i)) →
      collect images (l.map (encodeJob w))
        = Collected.done (l.foldl (fun im i => im.set i (some (enc i))) images) := by
  induction l with
  | nil => intro images _; simp [collect]
  | cons a rest ih =>
    intro images h
    have ha := h a (List.mem_cons_self a rest)
    have hjob : encodeJob w a = { index := a, img := some (enc a), err := none } := by
      simp [encodeJob, ha.2]
    simp only [List.map_cons, List.foldl_cons]
    unfold collect
    rw [hjob]
    simp only [if_pos ha.1]
    apply ih
    intro i hi
    have := h i (List.mem_cons_of_mem a hi)
    simpa using this

theorem foldl_set_getElem? {α : Type} (f : Nat → α) (l : List Nat) :
    ∀ (images : List α) (j : Nat), j < images.length →
      (l.foldl (fun im i => im.set i (f i)) images)[j]?
        = if j ∈ l then some (f j) else images[j]? := by
  induction l with
  | nil => intro images j _; simp
  | cons a rest ih =>
    intro images j hj
    simp only [List.foldl_cons]
    rw [ih (images.set a (f a)) j (by simpa using hj)]
    by_cases hjr : j ∈ rest
    · simp [hjr]
    · by_cases hja : j = a
      · subst hja
        simp [hjr, List.getElem?_set_self, hj]
      · have hne : a ≠ j := fun h => hja h.symm
        simp [hjr, hja, List.getElem?_set_ne hne]

theorem foldl_set_length {α : Type} (f : Nat → α) (l : List Nat) :
    ∀ (images : List α), (l.foldl (fun im i => im.set i (f i)) images).length = images.length := by
  induction l with
  | nil => intro images; rfl
  | cons a rest ih => intro images; simp [List.foldl_cons, ih]

theorem foldl_set_perm_range {α : Type} (f : Nat → α) (n : Nat) (l : List Nat) (init : α)
    (hperm : l.Perm (List.range n)) :
    l.foldl (fun im i => im.set i (f i)) (List.replicate n init) = (List.range n).map f := by
  apply List.ext_getElem?
  intro j
  by_cases hj : j < n
  · rw [foldl_set_getElem? f l _ j (by simpa using hj)]
    have : j ∈ l := hperm.mem_iff.mpr (List.mem_range.mpr hj)
    simp [this, hj]
  · have h1 : (l.foldl (fun im i => im.set i (f i)) (List.replicate n init))[j]? = none := by
      apply List.getElem?_eq_none
      rw [foldl_set_length]; simp; omega
    have h2 : ((List.range n).map f)[j]? = none := by
      apply List.getElem?_eq_none
      simp; omega
    rw [h1, h2]

theorem collect_first_error {Img : Type} (w : World Img) (k : Nat) (e : Err)
    (post : List Nat) (hk : w.encode k = Except.error e) (pre : List Nat) :
    ∀ (images : List (Option Img)),
      (∀ i ∈ pre, i < images.length ∧ ∃ img, w.encode i = Except.ok img) →
      collect images ((pre ++ k :: post).map (encodeJob w)) = Collected.failed e := by
  induction pre with
  | nil =>
    intro images _
    simp [collect, encodeJob, hk]
  | cons a rest ih =>
    intro images h
    obtain ⟨ha, img, himg⟩ := h a (List.mem_cons_self a rest)
    have hjob : encodeJob w a = { index := a, img := some img, err := none } := by
      simp [encodeJob, himg]
    simp only [List.cons_append, List.map_cons]
    unfold collect
    rw [hjob]
    simp only [if_pos ha]
    apply ih
    intro i hi
    have := h i (List.mem_cons_of_mem a hi)
    simpa using this

/-! ## C2 and C5: the claims -/

/-- C2: for every N and every order (a permutation of 0..N-1) in which N successful encode
results reach the collector loop, the loop ends with the slot array holding at index i the
frame encoded from index i, and the animation handed to the GIF encoder has exactly these N
frames in sequence order; GenerateGIF returns nil. -/
theorem generateGIF_frames_in_sequence_order {Img : Type} (w : World Img) (ovf : F64 → Int)
    (n : Nat) (gameID : String) (speed : F64) (theme : String) (order : List Nat) (fs : FS)
    (enc : Nat → Img) (hperm : order.Perm (List.range n))
    (hstamp : w.stamp (fileBaseFor gameID ((n : Int) - 1) ++ ".png") = none)
    (henc : ∀ i, i < n → w.encode i = Except.ok (enc i)) :
    collect (List.replicate n none) (order.map (encodeJob w))
        = Collected.done ((List.range n).map (fun i => some (enc i)))
    ∧ (GenerateGIF w ovf n gameID speed theme order fs).ret = Returned.nil
    ∧ ∃ g, (GenerateGIF w ovf n gameID speed theme order fs).written = some g
        ∧ g.Image.length = n
        ∧ ∀ i, i < n → g.Image[i]? = some (some (enc i)) := by
  have hc : collect (List.replicate n none) (order.map (encodeJob w))
      = Collected.done ((List.range n).map (fun i => some (enc i))) := by
    rw [collect_all_ok w enc order]
    · rw [foldl_set_perm_range (fun i => some (enc i)) n order none hperm]
    · intro i hi
      have : i < n := List.mem_range.mp (hperm.mem_iff.mp hi)
      exact ⟨by simpa using this, henc i this⟩
  refine ⟨hc, ?_, ?_⟩
  · simp only [GenerateGIF, hstamp, hc]
  · refine ⟨assemble ovf n speed 0 ((List.range n).map (fun i => some (enc i)))
        { Image := [], Delay := [] }, ?_, ?_, ?_⟩
    · simp only [GenerateGIF, hstamp, hc]
    · rw [assemble_Image]; simp
    · intro i hi
      rw [assemble_Image]
      simp [List.getElem?_range hi]

/-- Witness for C2: three positions whose results arrive in the order 2, 0, 1. -/
theorem generateGIF_frames_in_sequence_order_witness :
    collect (List.replicate 3 none) ([2, 0, 1].map (encodeJob worldAllGood))
        = Collected.done ((List.range 3).map (fun i => some (100 + i)))
    ∧ (GenerateGIF worldAllGood amd64Overflow 3 "game" (F64.fin 1 0) "brown"
        [2, 0, 1] []).ret = Returned.nil
    ∧ ∃ g, (GenerateGIF worldAllGood amd64Overflow 3 "game" (F64.fin 1 0) "brown"
          [2, 0, 1] []).written = some g
        ∧ g.Image.length = 3
        ∧ ∀ i, i < 3 → g.Image[i]? = some (some (100 + i)) :=
  generateGIF_frames_in_sequence_order worldAllGood amd64Overflow 3 "game" (F64.fin 1 0)
    "brown" [2, 0, 1] [] (fun i => 100 + i) (by decide) (by decide) (fun _ _ => rfl)

/-- C5: when the encode results reach the collector loop in an order whose first failing
result is the one of index k with error e (every result before it a success for an index
below N), GenerateGIF returns exactly e, whatever comes after it, and the output writer is
never written. -/
theorem generateGIF_returns_first_error {Img : Type} (w : World Img) (ovf : F64 → Int)
    (n : Nat) (gameID : String) (speed : F64) (theme : String) (fs : FS)
    (pre post : List Nat) (k : Nat) (e : Err)
    (hstamp : w.stamp (fileBaseFor gameID ((n : Int) - 1) ++ ".png") = none)
    (hpre : ∀ i ∈ pre, i < n ∧ ∃ img, w.encode i = Except.ok img)
    (hk : w.encode k = Except.error e) :
    (GenerateGIF w ovf n gameID speed theme (pre ++ k :: post) fs).ret = Returned.error e
    ∧ (GenerateGIF w ovf n gameID speed theme (pre ++ k :: post) fs).written = none := by
  have hc := collect_first_error w k e post hk pre (List.replicate n none)
    (by intro i hi; have := hpre i hi; simpa using this)
  constructor <;> simp only [GenerateGIF, hstamp, hc]

/-- Witness for C5: four positions, the PNGs of index 1 and 2 both broken; the result of
index 2 arrives before the one of index 1, so the error of index 2 is returned. -/
theorem generateGIF_returns_first_error_witness :
    (GenerateGIF worldTwoBadPNGs amd64Overflow 4 "game" (F64.fin 1 0) "brown"
        ([0, 3] ++ 2 :: [1]) []).ret = Returned.error "unexpected EOF"
    ∧ (GenerateGIF worldTwoBadPNGs amd64Overflow 4 "game" (F64.fin 1 0) "brown"
        ([0, 3] ++ 2 :: [1]) []).written = none :=
  generateGIF_returns_first_error worldTwoBadPNGs amd64Overflow 4 "game" (F64.fin 1 0)
    "brown" [] [0, 3] [1] 2 "unexpected EOF" (by decide)
    (by
      intro i hi
      simp only [List.mem_cons, List.mem_singleton, List.not_mem_nil, or_false] at hi
      rcases hi with rfl | rfl
      · exact ⟨by decide, 100, rfl⟩
      · exact ⟨by decide, 103, rfl⟩)
    rfl

/-! ## C3, C4 and C6: errors that are dropped -/

/-- C3 fails on the code: with two positions, the annotate script failing for frame 0 and
everything else succeeding, render job 0 has failed, yet GenerateGIF returns nil and
writes a two-frame animation to the output. -/
theorem generateGIF_ignores_render_failure :
    (worldAnnotateFails.render 0).annotate = some "exit status 1"
    ∧ (GenerateGIF worldAnnotateFails amd64Overflow 2 "game" (F64.fin 1 0) "brown"
        [0, 1] []).ret = Returned.nil
    ∧ (GenerateGIF worldAnnotateFails amd64Overflow 2 "game" (F64.fin 1 0) "brown"
        [0, 1] []).written = some { Image := [some 100, some 101], Delay := [50, 450] } := by
  decide

/-- C4 fails on the code: when the inkscape run fails, and likewise when the annotate
script fails, drawPNG returns `err`, which is nil at that point. -/
theorem drawPNG_returns_nil_on_command_failure :
    (drawPNG { create := none, svg := none, convert := some "exit status 1", annotate := none }
        "/tmp/game000" []).1 = none
    ∧ (drawPNG { create := none, svg := none, convert := none, annotate := some "exit status 1" }
        "/tmp/game000" []).1 = none := by
  decide

/-- C6 fails on the code: when gif.EncodeAll returns an error, GenerateGIF still
returns nil. -/
theorem generateGIF_ignores_encodeAll_error :
    (GenerateGIF worldSinkFails amd64Overflow 2 "game" (F64.fin 1 0) "brown"
        [0, 1] []).encodeAllErr = some "write tcp: broken pipe"
    ∧ (GenerateGIF worldSinkFails amd64Overflow 2 "game" (F64.fin 1 0) "brown"
        [0, 1] []).ret = Returned.nil := by
  decide

/-! ## C7: deferred cleanup -/

theorem FS.not_mem_remove (fs : FS) (path : String) : path ∉ FS.remove fs path := by
  simp [FS.remove]

theorem FS.not_mem_remove_of_not_mem (fs : FS) (p path : String) (h : p ∉ fs) :
    p ∉ FS.remove fs path := by
  intro hm
  exact h (List.mem_of_mem_filter hm)

theorem not_mem_cleanup_of_not_mem (gameID : String) (i : Int) (fs : FS) (p : String)
    (h : p ∉ fs) : p ∉ cleanup gameID i fs := by
  unfold cleanup
  exact FS.not_mem_remove_of_not_mem _ _ _ (FS.not_mem_remove_of_not_mem _ _ _ h)

theorem not_mem_runDeferred_of_not_mem (gameID : String) (p : String) (n : Nat) :
    ∀ fs : FS, p ∉ fs → p ∉ runDeferred gameID n fs := by
  induction n with
  | zero => intro fs h; simpa [runDeferred] using h
  | succ k ih =>
    intro fs h
    simp only [runDeferred]
    exact ih _ (not_mem_cleanup_of_not_mem gameID k fs p h)

theorem runDeferred_removes (gameID : String) (n : Nat) :
    ∀ (fs : FS) (i : Nat), i < n →
      fileBaseFor gameID (i : Int) ++ ".svg" ∉ runDeferred gameID n fs
      ∧ fileBaseFor gameID (i : Int) ++ ".png" ∉ runDeferred gameID n fs := by
  induction n with
  | zero => intro fs i hi; omega
  | succ k ih =>
    intro fs i hi
    simp only [runDeferred]
    by_cases hik : i = k
    · subst hik
      constructor
      · apply not_mem_runDeferred_of_not_mem
        unfold cleanup
        exact FS.not_mem_remove_of_not_mem _ _ _ (FS.not_mem_remove _ _)
      · apply not_mem_runDeferred_of_not_mem
        unfold cleanup
        exact FS.not_mem_remove _ _
    · exact ih _ i (by omega)

/-- C7: for every run of GenerateGIF over N positions, however it returns (the world decides
between the outcome-stamp failure, an encode failure and success), the scratch storage left
after the deferred cleanup holds, for every index i below N, neither
fileBaseFor(gameID, i) + ".svg" nor fileBaseFor(gameID, i) + ".png". -/
theorem generateGIF_removes_scratch {Img : Type} (w : World Img) (ovf : F64 → Int) (n : Nat)
    (gameID : String) (speed : F64) (theme : String) (order : List Nat) (fs : FS)
    (i : Nat) (hi : i < n) :
    fileBaseFor gameID (i : Int) ++ ".svg"
        ∉ (GenerateGIF w ovf n gameID speed theme order fs).fs
    ∧ fileBaseFor gameID (i : Int) ++ ".png"
        ∉ (GenerateGIF w ovf n gameID speed theme order fs).fs := by
  have : (GenerateGIF w ovf n gameID speed theme order fs).fs
      = runDeferred gameID n (renderAll w gameID n fs) := rfl
  rw [this]
  exact runDeferred_removes gameID n _ i hi

/-- Witness for C7: three runs over three positions, one ending in the outcome-stamp
failure, one in an encode failure, one in success; in each the files of index 1 are gone,
although the render phase had created them. -/
theorem generateGIF_removes_scratch_witness :
    ("/tmp/game001.png" ∈ renderAll worldAllGood "game" 3 []
      ∧ fileBaseFor "game" ((1 : Nat) : Int) = "/tmp/game001")
    ∧ ((GenerateGIF worldStampFails amd64Overflow 3 "game" (F64.fin 1 0) "brown"
          [0, 1, 2] []).ret = Returned.error "exit status 1"
      ∧ (fileBaseFor "game" ((1 : Nat) : Int) ++ ".svg"
          ∉ (GenerateGIF worldStampFails amd64Overflow 3 "game" (F64.fin 1 0) "brown"
              [0, 1, 2] []).fs
        ∧ fileBaseFor "game" ((1 : Nat) : Int) ++ ".png"
          ∉ (GenerateGIF worldStampFails amd64Overflow 3 "game" (F64.fin 1 0) "brown"
              [0, 1, 2] []).fs))
    ∧ ((GenerateGIF worldTwoBadPNGs amd64Overflow 3 "game" (F64.fin 1 0) "brown"
          [0, 1, 2] []).ret = Returned.error "png: invalid format: not a PNG file"
      ∧ (fileBaseFor "game" ((1 : Nat) : Int) ++ ".svg"
          ∉ (GenerateGIF worldTwoBadPNGs amd64Overflow 3 "game" (F64.fin 1 0) "brown"
              [0, 1, 2] []).fs
        ∧ fileBaseFor "game" ((1 : Nat) : Int) ++ ".png"
          ∉ (GenerateGIF worldTwoBadPNGs amd64Overflow 3 "game" (F64.fin 1 0) "brown"
              [0, 1, 2] []).fs))
    ∧ ((GenerateGIF worldAllGood amd64Overflow 3 "game" (F64.fin 1 0) "brown"
          [0, 1, 2] []).ret = Returned.nil
      ∧ (fileBaseFor "game" ((1 : Nat) : Int) ++ ".svg"
          ∉ (GenerateGIF worldAllGood amd64Overflow 3 "game" (F64.fin 1 0) "brown"
              [0, 1, 2] []).fs
        ∧ fileBaseFor "game" ((1 : Nat) : Int) ++ ".png"
          ∉ (GenerateGIF worldAllGood amd64Overflow 3 "game" (F64.fin 1 0) "brown"
              [0, 1, 2] []).fs)) :=
  ⟨by decide,
   ⟨by decide, generateGIF_removes_scratch worldStampFails amd64Overflow 3 "game"
      (F64.fin 1 0) "brown" [0, 1, 2] [] 1 (by decide)⟩,
   ⟨by decide, generateGIF_removes_scratch worldTwoBadPNGs amd64Overflow 3 "game"
      (F64.fin 1 0) "brown" [0, 1, 2] [] 1 (by decide)⟩,
   ⟨by decide, generateGIF_removes_scratch worldAllGood amd64Overflow 3 "game"
      (F64.fin 1 0) "brown" [0, 1, 2] [] 1 (by decide)⟩⟩

/-! ## C8: theme selection -/

theorem themes_eq_none_iff (theme : String) :
    themes theme = none
      ↔ ¬ (theme = "brown" ∨ theme = "blue" ∨ theme = "green" ∨ theme = "purple") := by
  unfold themes
  split <;> simp_all

theorem validThemes_iff (s : String) :
    validThemes s = true ↔ (s = "brown" ∨ s = "blue" ∨ s = "green" ∨ s = "purple") := by
  unfold validThemes
  split <;> simp_all

/-- C8: theme selection never fails. For every theme string GenerateGIF sets
(darkColor, lightColor) to the entry of the themes table when the name is one of brown,
blue, green, purple, and to the brown entry ((181,136,99,255), (240,217,181,255)) for every
other string; getTheme returns the single requested name when it is one of those four and
"brown" otherwise. -/
theorem theme_selection_never_fails {Img : Type} (w : World Img) (ovf : F64 → Int) (n : Nat)
    (gameID : String) (speed : F64) (theme : String) (order : List Nat) (fs : FS)
    (query : String → Option (List String)) :
    ((theme = "brown" ∨ theme = "blue" ∨ theme = "green" ∨ theme = "purple") →
        themes theme = some ((GenerateGIF w ovf n gameID speed theme order fs).darkColor,
                             (GenerateGIF w ovf n gameID speed theme order fs).lightColor))
    ∧ (¬ (theme = "brown" ∨ theme = "blue" ∨ theme = "green" ∨ theme = "purple") →
        (GenerateGIF w ovf n gameID speed theme order fs).darkColor = ⟨181, 136, 99, 255⟩
        ∧ (GenerateGIF w ovf n gameID speed theme order fs).lightColor
            = ⟨240, 217, 181, 255⟩)
    ∧ themes "brown" = some (⟨181, 136, 99, 255⟩, ⟨240, 217, 181, 255⟩)
    ∧ (∀ s, query "theme" = some [s] →
        (s = "brown" ∨ s = "blue" ∨ s = "green" ∨ s = "purple") → getTheme query = s)
    ∧ ((¬ ∃ s, query "theme" = some [s]
          ∧ (s = "brown" ∨ s = "blue" ∨ s = "green" ∨ s = "purple")) →
        getTheme query = "brown") := by
  have hd : (GenerateGIF w ovf n gameID speed theme order fs).darkColor
      = (setThemeColors theme).1 := rfl
  have hl : (GenerateGIF w ovf n gameID speed theme order fs).lightColor
      = (setThemeColors theme).2 := rfl
  rw [hd, hl]
  refine ⟨?_, ?_, rfl, ?_, ?_⟩
  · intro h
    have hne : themes theme ≠ none := fun hn => (themes_eq_none_iff theme).mp hn h
    unfold setThemeColors
    cases ht : themes theme with
    | none => exact absurd ht hne
    | some c => rfl
  · intro h
    have hn := (themes_eq_none_iff theme).mpr h
    unfold setThemeColors
    rw [hn]
    exact ⟨rfl, rfl⟩
  · intro s hq hs
    unfold getTheme
    rw [hq]
    simp only [(validThemes_iff s).mpr hs, if_true]
  · intro h
    unfold getTheme
    split
    · next s hq =>
      have hv : validThemes s ≠ true := fun hv => h ⟨s, hq, (validThemes_iff s).mp hv⟩
      simp [hv]
    · rfl

/-! ## C10: scratch paths -/

theorem digitChar_value (k : Nat) (hk : k < 10) : (Nat.digitChar k).toNat - 48 = k := by
  interval_cases k <;> rfl

theorem digitsValue_toDigitsCore (fuel : Nat) :
    ∀ (n : Nat) (ds : List Char), n < fuel →
      digitsValue 0 (Nat.toDigitsCore 10 fuel n ds) = digitsValue n ds := by
  induction fuel with
  | zero => intro n ds h; omega
  | succ f ih =>
    intro n ds h
    simp only [Nat.toDigitsCore]
    split
    · next h0 =>
      have hn : n % 10 = n := by omega
      simp only [digitsValue, List.foldl_cons, digitChar_value (n % 10) (Nat.mod_lt n (by decide))]
      rw [hn]; simp
    · next h0 =>
      rw [ih (n / 10) _ (by omega)]
      simp only [digitsValue, List.foldl_cons,
        digitChar_value (n % 10) (Nat.mod_lt n (by decide))]
      congr 1
      omega

theorem digitsValue_toDigits (n : Nat) : digitsValue 0 (Nat.toDigits 10 n) = n := by
  unfold Nat.toDigits
  rw [digitsValue_toDigitsCore (n + 1) n [] (by omega)]
  rfl

theorem digitsValue_zeroPad (width : Nat) (ds : List Char) :
    digitsValue 0 (zeroPad width ds) = digitsValue 0 ds := by
  unfold zeroPad
  generalize width - ds.length = k
  induction k with
  | zero => simp
  | succ k ih =>
    simp only [List.replicate_succ, List.cons_append, digitsValue, List.foldl_cons] at ih ⊢
    exact ih

theorem sprintf03d_value (i : Int) (hi : 0 ≤ i) :
    digitsValue 0 (sprintf03d i).data = i.toNat := by
  unfold sprintf03d
  rw [if_pos hi]
  simp only
  rw [digitsValue_zeroPad, digitsValue_toDigits]

theorem sprintf03d_length (i : Int) (hi : 0 ≤ i) (hlt : i < 1000) :
    (sprintf03d i).data.length = 3 := by
  unfold sprintf03d
  rw [if_pos hi]
  have h3 : (Nat.toDigits 10 i.toNat).length ≤ 3 := by
    exact Nat.repr_length i.toNat 3 (by decide) (by omega)
  simp only [zeroPad, List.length_append, List.length_replicate]
  omega

theorem fileBaseFor_data (gameID : String) (i : Int) :
    (fileBaseFor gameID i).data = "/tmp/".data ++ (gameID.data ++ (sprintf03d i).data) := by
  simp [fileBaseFor, String.data_append]

/-- C10 (amended): for all run identifiers g1, g2 and indices i, j >= 0, if the identifiers
have the same length (in particular within one run, g1 = g2) or both indices are below
1000, then fileBaseFor(g1, i) = fileBaseFor(g2, j) implies g1 = g2 and i = j. -/
theorem fileBaseFor_injective (g1 g2 : String) (i j : Int) (hi : 0 ≤ i) (hj : 0 ≤ j)
    (hside : g1.length = g2.length ∨ (i < 1000 ∧ j < 1000))
    (h : fileBaseFor g1 i = fileBaseFor g2 j) : g1 = g2 ∧ i = j := by
  have hd : g1.data ++ (sprintf03d i).data = g2.data ++ (sprintf03d j).data := by
    have := congrArg String.data h
    rw [fileBaseFor_data, fileBaseFor_data] at this
    exact List.append_cancel_left this
  have hboth : g1.data = g2.data ∧ (sprintf03d i).data = (sprintf03d j).data := by
    rcases hside with hlen | ⟨h1, h2⟩
    · exact List.append_inj hd hlen
    · exact List.append_inj' hd
        (by rw [sprintf03d_length i hi h1, sprintf03d_length j hj h2])
  refine ⟨String.ext hboth.1, ?_⟩
  have hv := congrArg (digitsValue 0) hboth.2
  rw [sprintf03d_value i hi, sprintf03d_value j hj] at hv
  omega

/-- Witness for C10: the identifier of a run and the index 7. -/
theorem fileBaseFor_injective_witness :
    fileBaseFor "bR4b8jno" 7 = "/tmp/bR4b8jno007" ∧ ("bR4b8jno" = "bR4b8jno" ∧ (7 : Int) = 7) :=
  ⟨by decide,
   fileBaseFor_injective "bR4b8jno" "bR4b8jno" 7 7 (by decide) (by decide)
     (Or.inl rfl) rfl⟩

/-- C10 as stated fails: the run "a" at index 1000 and the run "a1" at index 0 share the
scratch path /tmp/a1000. -/
theorem fileBaseFor_collision :
    fileBaseFor "a" 1000 = fileBaseFor "a1" 0
    ∧ fileBaseFor "a" 1000 = "/tmp/a1000"
    ∧ ¬ ("a" = "a1" ∧ (1000 : Int) = 0) := by
  decide

end Giflichess
